import Mathlib

/-!
Verification development for the `coding_sample` hierarchical scraper
(`lipi-swap.py` and `lipi-swap-refactored.py`).

The HTML documents the scraper walks are shallowly embedded as lists of
tables, rows and cells.  External library calls (`unidecode`, `urljoin`,
the network fetch, query-string parsing) are modelled as function
parameters gathered in an `Env`, so every theorem quantifies over them.
Python's `str.strip` is modelled by the executable `pyStrip`, the `None` sentinel by
`Option`, raised exceptions (`KeyError` on a missing `href`,
`requests.RequestException`) by `Except`.
-/

namespace LipiSwap

/-- An `<a>` tag: its visible text and its (possibly absent) `href`
attribute.  `bs4`'s `tag['href']` raises `KeyError` when the attribute is
absent, hence the `Option`. -/
structure ATag where
  text : String
  href : Option String
deriving Repr, DecidableEq

/-- A `<td>` cell: its visible text and the list of `<a>` descendants in
document order (`cell.find('a')` returns the first of these). -/
structure Cell where
  text : String
  links : List ATag
deriving Repr, DecidableEq

/-- A `<tr>` row: its `<td>` cells in document order (`row.find_all('td')`). -/
structure Row where
  cells : List Cell
deriving Repr, DecidableEq

/-- A `<table>` element: its `id` attribute and its `<tr>` rows in document
order (`table.find_all('tr')`). -/
structure HTable where
  id : String
  rows : List Row
deriving Repr, DecidableEq

/-- A parsed page: its tables in document order.
`soup.find('table', id='t1')` returns the first table whose id matches. -/
structure Document where
  tables : List HTable
deriving Repr, DecidableEq

/-- `soup.find('table', id='t1')`. -/
def findT1 (doc : Document) : Option HTable :=
  doc.tables.find? (fun t => t.id == "t1")

/-- `base_url` from `lipi-swap.py` (same string as `BASE_URL_PATH` in the
refactored file). -/
def base_url : String := "put/your/base/url/here"

/-- Python's `str.strip()` with no argument: drop leading and trailing
whitespace.  Defined structurally over the character list so that closed
instances evaluate by `decide`. -/
def pyStrip (s : String) : String :=
  ⟨(((s.data.dropWhile Char.isWhitespace).reverse.dropWhile
      Char.isWhitespace).reverse)⟩

/-- One loop iteration of `extract_links` on a single row:
`.ok none` when the row is skipped (fewer than two cells, or no link in the
second cell), `.ok (some pair)` when a `(name, full_url)` pair is appended,
`.error ()` when `link_tag['href']` raises `KeyError`. -/
def linkFromRow (uni : String → String) (urljoin : String → String → String)
    (row : Row) : Except Unit (Option (String × String)) :=
  match row.cells with
  | _ :: c1 :: _ =>
    match c1.links.head? with
    | none => .ok none
    | some a =>
      match a.href with
      | none => .error ()
      | some href => .ok (some (uni (pyStrip a.text), urljoin base_url href))
  | _ => .ok none

/-- The `for row in rows` loop of `extract_links`, accumulating pairs in
row order. -/
def linksFromRows (uni : String → String) (urljoin : String → String → String) :
    List Row → Except Unit (List (String × String))
  | [] => .ok []
  | row :: rest =>
    match linkFromRow uni urljoin row with
    | .error e => .error e
    | .ok none => linksFromRows uni urljoin rest
    | .ok (some p) => (linksFromRows uni urljoin rest).map (fun l => p :: l)

/-- `extract_links(soup)` from `lipi-swap.py` lines 28-45: `[]` on the
absent-document sentinel or a missing `t1` table, otherwise the pairs
extracted from the rows after the first four. -/
def extract_links (uni : String → String) (urljoin : String → String → String)
    (soup : Option Document) : Except Unit (List (String × String)) :=
  match soup with
  | none => .ok []
  | some doc =>
    match findT1 doc with
    | none => .ok []
    | some table => linksFromRows uni urljoin (table.rows.drop 4)

/-- A leaf record as built by `scrape_table_data`: the five ancestor-context
fields, the transliterated panchayat name, and the twelve month fields. -/
structure LeafRecord where
  state : String
  state_id : String
  fy : String
  district : String
  block : String
  panchayat : String
  april : String
  may : String
  june : String
  july : String
  august : String
  september : String
  october : String
  november : String
  december : String
  january : String
  february : String
  march : String
deriving Repr, DecidableEq

/-- One loop iteration of `scrape_table_data` on a single row: `none` when
the row has fewer than 14 cells, otherwise the record built from cells
2 through 13 (0-based), with the panchayat name from cell 1. -/
def recordFromRow (uni : String → String)
    (state state_id fy district block : String) (row : Row) : Option LeafRecord :=
  match row.cells with
  | _ :: c1 :: c2 :: c3 :: c4 :: c5 :: c6 :: c7 :: c8 :: c9 :: c10 :: c11 :: c12 :: c13 :: _ =>
    some { state := state, state_id := state_id, fy := fy,
           district := district, block := block,
           panchayat := uni (pyStrip c1.text),
           april := pyStrip c2.text, may := pyStrip c3.text, june := pyStrip c4.text,
           july := pyStrip c5.text, august := pyStrip c6.text, september := pyStrip c7.text,
           october := pyStrip c8.text, november := pyStrip c9.text, december := pyStrip c10.text,
           january := pyStrip c11.text, february := pyStrip c12.text, march := pyStrip c13.text }
  | _ => none

/-- `scrape_table_data(soup, state, state_id, fy, district, block)` from
`lipi-swap.py` lines 48-81: `[]` on the absent sentinel or a missing `t1`
table, otherwise one record per qualifying row after the first four. -/
def scrape_table_data (uni : String → String) (soup : Option Document)
    (state state_id fy district block : String) : List LeafRecord :=
  match soup with
  | none => []
  | some doc =>
    match findT1 doc with
    | none => []
    | some table =>
      (table.rows.drop 4).filterMap (recordFromRow uni state state_id fy district block)

/-- The observable outcome of one `get_soup` call: the returned value
(`none` is the absent-document sentinel) and the number of `time.sleep(1)`
calls performed. -/
structure GetSoupTrace where
  result : Option Document
  sleeps : Nat
deriving Repr, DecidableEq

/-- `get_soup(url)` from `lipi-swap.py` lines 17-25, over a network oracle
`net` that yields the parsed body on a successful `requests.get` +
`raise_for_status`, and `.error ()` when a `requests.RequestException` is
raised.  On success the code sleeps 1 second and returns the soup; on
failure control jumps to the `except` block, which returns `None` without
reaching the `time.sleep(1)` line. -/
def get_soup (net : String → Except Unit Document) (url : String) : GetSoupTrace :=
  match net url with
  | .ok doc => { result := some doc, sleeps := 1 }
  | .error _ => { result := none, sleeps := 0 }

/-- The document actually handed to the extractors after a fetch. -/
def soupOf (net : String → Except Unit Document) (url : String) : Option Document :=
  (get_soup net url).result

/-- The external-world parameters of a run: the transliteration function
`unidecode`, the URL resolver `urljoin`, the network, and the query-string
view `qp url key = parse_qs(urlparse(url).query)[key]` (the empty list
encodes an absent key; `parse_qs` never maps a present key to an empty
list). -/
structure Env where
  uni : String → String
  urljoin : String → String → String
  net : String → Except Unit Document
  qp : String → String → List String

/-- `query_params.get(key, ['Unknown'])[0]`: the first value when the key
is present, the literal `"Unknown"` when it is absent. -/
def getParam (vals : List String) : String :=
  match vals with
  | [] => "Unknown"
  | v :: _ => v

/-- The per-state crawl context `(state, state_id, fy)` recovered from the
URL query parameters in `main` (lines 87-91). -/
def stateContext (e : Env) (url : String) : String × String × String :=
  (getParam (e.qp url "state_name"),
   getParam (e.qp url "state_code"),
   getParam (e.qp url "fin_year"))

/-- The body of the innermost loop of `main` (lines 112-120): fetch the
block page and scrape it; a fetch failure contributes nothing. -/
def processBlock (e : Env) (state state_id fy district : String)
    (blk : String × String) : List LeafRecord :=
  match soupOf e.net blk.2 with
  | none => []
  | some doc => scrape_table_data e.uni (some doc) state state_id fy district blk.1

/-- The `for block_name, block_url in block_links` loop (lines 112-120):
records contributed by each block in link order, concatenated the way
`all_data.extend` appends them. -/
def blocksLoop (e : Env) (state state_id fy district : String) :
    List (String × String) → List LeafRecord
  | [] => []
  | blk :: rest =>
    processBlock e state state_id fy district blk
      ++ blocksLoop e state state_id fy district rest

/-- The body of the district loop of `main` (lines 102-121): fetch the
district page, extract block links, process each block in order.  A fetch
failure contributes nothing; a `KeyError` from `extract_links` propagates. -/
def processDistrict (e : Env) (state state_id fy : String)
    (dist : String × String) : Except Unit (List LeafRecord) :=
  match soupOf e.net dist.2 with
  | none => .ok []
  | some ddoc => do
    let blocks ← extract_links e.uni e.urljoin (some ddoc)
    pure (blocksLoop e state state_id fy dist.1 blocks)

/-- The `for district_name, district_url in district_links` loop
(lines 102-121), accumulating in visit order. -/
def districtsLoop (e : Env) (state state_id fy : String) :
    List (String × String) → Except Unit (List LeafRecord)
  | [] => .ok []
  | dist :: rest => do
    let r ← processDistrict e state state_id fy dist
    let rs ← districtsLoop e state state_id fy rest
    pure (r ++ rs)

/-- The body of the state loop of `main` (lines 86-121): parse the context
from the URL, fetch the state page, extract district links, process each
district in order. -/
def processState (e : Env) (url : String) : Except Unit (List LeafRecord) :=
  match soupOf e.net url with
  | none => .ok []
  | some sdoc => do
    let districts ← extract_links e.uni e.urljoin (some sdoc)
    districtsLoop e (stateContext e url).1 (stateContext e url).2.1
      (stateContext e url).2.2 districts

/-- The `for state_url in state_urls` loop (lines 86-121). -/
def statesLoop (e : Env) : List String → Except Unit (List LeafRecord)
  | [] => .ok []
  | url :: rest => do
    let r ← processState e url
    let rs ← statesLoop e rest
    pure (r ++ rs)

/-- `all_data` as accumulated by `main` over the state URL list. -/
def mainRecords (e : Env) (state_urls : List String) :
    Except Unit (List LeafRecord) :=
  statesLoop e state_urls

/-- The CSV header produced by `pd.DataFrame(all_data).to_csv`: the keys of
the record dictionaries in insertion order. -/
def csvHeader : List String :=
  ["State", "State ID", "FY", "District", "Block", "Panchayat",
   "April", "May", "June", "July", "August", "September",
   "October", "November", "December", "January", "February", "March"]

/-- One CSV data row per leaf record, fields in header order. -/
def recordToRow (r : LeafRecord) : List String :=
  [r.state, r.state_id, r.fy, r.district, r.block, r.panchayat,
   r.april, r.may, r.june, r.july, r.august, r.september,
   r.october, r.november, r.december, r.january, r.february, r.march]

/-- The content of the CSV file written by `main`: a header row followed by
one row per record, nothing else. -/
def csvContent (records : List LeafRecord) : List (List String) :=
  csvHeader :: records.map recordToRow

/-- `output_file` from `lipi-swap.py` line 125. -/
def output_file : String := "put/yourr/output/path/here.csv"

/-- `main()` from `lipi-swap.py` lines 84-129, returning the single file
write it performs at the end: `none` when `all_data` is empty (no file is
written), otherwise the output path paired with the tabular content. -/
def main (e : Env) (state_urls : List String) :
    Except Unit (Option (String × List (List String))) := do
  let all_data ← mainRecords e state_urls
  if all_data.isEmpty then
    pure none
  else
    pure (some (output_file, csvContent all_data))

/-! Counterpart definitions from `lipi-swap-refactored.py`.  The `verbose`
parameters of `get_soup` and `main` there only gate `print` calls, which
have no observable effect in this embedding; everything else is embedded
afresh from that file's own text. -/

/-- `BASE_URL_PATH` from `lipi-swap-refactored.py` line 17. -/
def BASE_URL_PATH : String := "put/your/base/url/here"

/-- `get_soup(url, verbose)` from `lipi-swap-refactored.py` lines 25-58. -/
def get_soup_r (net : String → Except Unit Document) (url : String) : GetSoupTrace :=
  match net url with
  | .ok doc => { result := some doc, sleeps := 1 }
  | .error _ => { result := none, sleeps := 0 }

/-- One loop iteration of the refactored `extract_links` (lines 98-119). -/
def linkFromRowR (uni : String → String) (urljoin : String → String → String)
    (row : Row) : Except Unit (Option (String × String)) :=
  match row.cells with
  | _ :: c1 :: _ =>
    match c1.links.head? with
    | none => .ok none
    | some a =>
      match a.href with
      | none => .error ()
      | some href => .ok (some (uni (pyStrip a.text), urljoin BASE_URL_PATH href))
  | _ => .ok none

/-- The row loop of the refactored `extract_links`. -/
def linksFromRowsR (uni : String → String) (urljoin : String → String → String) :
    List Row → Except Unit (List (String × String))
  | [] => .ok []
  | row :: rest =>
    match linkFromRowR uni urljoin row with
    | .error e => .error e
    | .ok none => linksFromRowsR uni urljoin rest
    | .ok (some p) => (linksFromRowsR uni urljoin rest).map (fun l => p :: l)

/-- `extract_links(soup)` from `lipi-swap-refactored.py` lines 61-122. -/
def extract_links_r (uni : String → String) (urljoin : String → String → String)
    (soup : Option Document) : Except Unit (List (String × String)) :=
  match soup with
  | none => .ok []
  | some doc =>
    match findT1 doc with
    | none => .ok []
    | some table => linksFromRowsR uni urljoin (table.rows.drop 4)

/-- One loop iteration of the refactored `scrape_table_data` (lines 164-196). -/
def recordFromRowR (uni : String → String)
    (state state_id fy district block : String) (row : Row) : Option LeafRecord :=
  match row.cells with
  | _ :: c1 :: c2 :: c3 :: c4 :: c5 :: c6 :: c7 :: c8 :: c9 :: c10 :: c11 :: c12 :: c13 :: _ =>
    some { state := state, state_id := state_id, fy := fy,
           district := district, block := block,
           panchayat := uni (pyStrip c1.text),
           april := pyStrip c2.text, may := pyStrip c3.text, june := pyStrip c4.text,
           july := pyStrip c5.text, august := pyStrip c6.text, september := pyStrip c7.text,
           october := pyStrip c8.text, november := pyStrip c9.text, december := pyStrip c10.text,
           january := pyStrip c11.text, february := pyStrip c12.text, march := pyStrip c13.text }
  | _ => none

/-- `scrape_table_data(...)` from `lipi-swap-refactored.py` lines 125-199. -/
def scrape_table_data_r (uni : String → String) (soup : Option Document)
    (state state_id fy district block : String) : List LeafRecord :=
  match soup with
  | none => []
  | some doc =>
    match findT1 doc with
    | none => []
    | some table =>
      (table.rows.drop 4).filterMap (recordFromRowR uni state state_id fy district block)

/-- The innermost loop body of the refactored `main` (lines 282-306). -/
def processBlockR (e : Env) (state state_id fy district : String)
    (blk : String × String) : List LeafRecord :=
  match (get_soup_r e.net blk.2).result with
  | none => []
  | some doc => scrape_table_data_r e.uni (some doc) state state_id fy district blk.1

/-- The block loop of the refactored `main` (lines 282-306). -/
def blocksLoopR (e : Env) (state state_id fy district : String) :
    List (String × String) → List LeafRecord
  | [] => []
  | blk :: rest =>
    processBlockR e state state_id fy district blk
      ++ blocksLoopR e state state_id fy district rest

/-- The district loop body of the refactored `main` (lines 260-306). -/
def processDistrictR (e : Env) (state state_id fy : String)
    (dist : String × String) : Except Unit (List LeafRecord) :=
  match (get_soup_r e.net dist.2).result with
  | none => .ok []
  | some ddoc => do
    let blocks ← extract_links_r e.uni e.urljoin (some ddoc)
    pure (blocksLoopR e state state_id fy dist.1 blocks)

/-- The district loop of the refactored `main` (lines 260-306). -/
def districtsLoopR (e : Env) (state state_id fy : String) :
    List (String × String) → Except Unit (List LeafRecord)
  | [] => .ok []
  | dist :: rest => do
    let r ← processDistrictR e state state_id fy dist
    let rs ← districtsLoopR e state state_id fy rest
    pure (r ++ rs)

/-- The state loop body of the refactored `main` (lines 223-306). -/
def processStateR (e : Env) (url : String) : Except Unit (List LeafRecord) :=
  let state := getParam (e.qp url "state_name")
  let state_id := getParam (e.qp url "state_code")
  let fy := getParam (e.qp url "fin_year")
  match (get_soup_r e.net url).result with
  | none => .ok []
  | some sdoc => do
    let districts ← extract_links_r e.uni e.urljoin (some sdoc)
    districtsLoopR e state state_id fy districts

/-- The state loop of the refactored `main` (lines 223-306). -/
def statesLoopR (e : Env) : List String → Except Unit (List LeafRecord)
  | [] => .ok []
  | url :: rest => do
    let r ← processStateR e url
    let rs ← statesLoopR e rest
    pure (r ++ rs)

/-- `all_data_list` as accumulated by the refactored `main`. -/
def mainRecordsR (e : Env) (state_urls : List String) :
    Except Unit (List LeafRecord) :=
  statesLoopR e state_urls

/-- `output_path` from `lipi-swap-refactored.py` line 314. -/
def output_path : String := "put/your/output/path/here.csv"

/-- `main(verbose)` from `lipi-swap-refactored.py` lines 202-325, returning
its single final file write. -/
def main_r (e : Env) (state_urls : List String) :
    Except Unit (Option (String × List (List String))) := do
  let all_data ← mainRecordsR e state_urls
  if all_data.isEmpty then
    pure none
  else
    pure (some (output_path, csvContent all_data))

/-- Decidable equality on `Except`, so closed runs can be checked by
`decide`. -/
instance exceptDecEq {ε α : Type} [DecidableEq ε] [DecidableEq α] :
    DecidableEq (Except ε α) := fun a b =>
  match a, b with
  | .ok x, .ok y =>
    if h : x = y then .isTrue (by rw [h]) else .isFalse (by simp [h])
  | .error x, .error y =>
    if h : x = y then .isTrue (by rw [h]) else .isFalse (by simp [h])
  | .ok _, .error _ => .isFalse (by simp)
  | .error _, .ok _ => .isFalse (by simp)

/-! Concrete fixtures: a three-level site (one state, one district, one
block, one data row) served by a small network oracle, used to instantiate
the theorems on closed inputs. -/

/-- A concrete stand-in for `unidecode`, visibly different from identity. -/
def uniTest (s : String) : String := "t:" ++ s

/-- A concrete stand-in for `urljoin` that keeps the relative href. -/
def ujTest : String → String → String := fun _ href => href

def emptyRow : Row := ⟨[]⟩

/-- The four non-data header rows every scraped table is assumed to start
with. -/
def headerRows : List Row := [emptyRow, emptyRow, emptyRow, emptyRow]

/-- A row whose second cell holds one link. -/
def mkLinkRow (txt href : String) : Row :=
  ⟨[⟨"", []⟩, ⟨"", [⟨txt, some href⟩]⟩]⟩

/-- A data row: a serial cell, a name cell, then one cell per value. -/
def mkDataRow (nm : String) (vals : List String) : Row :=
  ⟨⟨"", []⟩ :: ⟨nm, []⟩ :: vals.map (fun v => ⟨v, []⟩)⟩

def stateTable : HTable := ⟨"t1", headerRows ++ [mkLinkRow "D" "durl"]⟩
def stateDoc : Document := ⟨[stateTable]⟩
def districtTable : HTable := ⟨"t1", headerRows ++ [mkLinkRow "B" "burl"]⟩
def districtDoc : Document := ⟨[districtTable]⟩

def monthVals : List String :=
  ["100", "110", "120", "130", "140", "150",
   "160", "170", "180", "190", "200", "210"]

def blockTable : HTable := ⟨"t1", headerRows ++ [mkDataRow "P" monthVals]⟩
def blockDoc : Document := ⟨[blockTable]⟩

/-- A document with no table of id `t1`. -/
def noT1Doc : Document := ⟨[⟨"t2", [mkLinkRow "D" "durl"]⟩]⟩

/-- A data row whose second-cell link lacks an `href` attribute. -/
def badRow : Row := ⟨[⟨"", []⟩, ⟨"", [⟨"X", none⟩]⟩]⟩

/-- A page on which `extract_links` hits the `KeyError` branch. -/
def badDoc : Document := ⟨[⟨"t1", headerRows ++ [badRow]⟩]⟩

/-- The network oracle: three known pages, every other URL fails. -/
def netTest (url : String) : Except Unit Document :=
  if url = "surl" then .ok stateDoc
  else if url = "durl" then .ok districtDoc
  else if url = "burl" then .ok blockDoc
  else .error ()

/-- Query parameters of the test state URL: `fin_year` is absent. -/
def qpTest (_url key : String) : List String :=
  if key = "state_name" then ["TestState"]
  else if key = "state_code" then ["09"]
  else []

def envTest : Env := ⟨uniTest, ujTest, netTest, qpTest⟩

/-- The one leaf record the fixture site yields. -/
def recTest : LeafRecord :=
  { state := "TestState", state_id := "09", fy := "Unknown",
    district := "t:D", block := "t:B", panchayat := "t:P",
    april := "100", may := "110", june := "120", july := "130",
    august := "140", september := "150", october := "160", november := "170",
    december := "180", january := "190", february := "200", march := "210" }

/-! ## Theorems -/

/-- C2 counterexample: on a failing fetch, `get_soup` returns the
absent-document sentinel without ever reaching the `time.sleep(1)` line,
so the 1-unit delay is skipped on failure rather than being unconditional. -/
theorem get_soup_no_delay_on_failure :
    get_soup netTest "nope" = { result := none, sleeps := 0 }
    ∧ (get_soup netTest "nope").sleeps ≠ 1 := by
  exact ⟨rfl, by decide⟩

/-- C2 (amended): the fixed 1-unit delay is observed exactly when the
request succeeds; when the fetch fails, the handler returns the sentinel
and the delay is skipped. -/
theorem get_soup_delay_only_on_success (net : String → Except Unit Document)
    (url : String) :
    ((∃ doc, net url = .ok doc) → (get_soup net url).sleeps = 1)
    ∧ (net url = .error () →
        (get_soup net url).sleeps = 0 ∧ (get_soup net url).result = none) := by
  constructor
  · rintro ⟨doc, h⟩
    simp [get_soup, h]
  · intro h
    simp [get_soup, h]

/-- Witness for the amended C2 theorem at the fixture network. -/
theorem get_soup_delay_only_on_success_witness :
    (get_soup netTest "surl").sleeps = 1 ∧ (get_soup netTest "nope").sleeps = 0 :=
  ⟨(get_soup_delay_only_on_success netTest "surl").1 ⟨stateDoc, rfl⟩,
   ((get_soup_delay_only_on_success netTest "nope").2 rfl).1⟩

/-- C4: on the absent-document sentinel, and on any document lacking a
table with id `t1`, both extractors return an empty sequence and raise no
error. -/
theorem extractors_empty_without_table (uni : String → String)
    (uj : String → String → String) (s sid fy d b : String) :
    extract_links uni uj none = .ok []
    ∧ scrape_table_data uni none s sid fy d b = []
    ∧ (∀ doc : Document, findT1 doc = none →
        extract_links uni uj (some doc) = .ok []
        ∧ scrape_table_data uni (some doc) s sid fy d b = []) := by
  refine ⟨rfl, rfl, fun doc h => ⟨?_, ?_⟩⟩ <;>
    simp [extract_links, scrape_table_data, h]

/-- Witness for C4 on a concrete document whose only table has id `t2`. -/
theorem extractors_empty_without_table_witness :
    extract_links uniTest ujTest (some noT1Doc) = .ok []
    ∧ scrape_table_data uniTest (some noT1Doc) "TestState" "09" "FY" "tD" "tB" = [] :=
  (extractors_empty_without_table uniTest ujTest
    "TestState" "09" "FY" "tD" "tB").2.2 noT1Doc (by decide)

/-- C8: each of `state_name`, `state_code`, `fin_year` defaults to the
literal `"Unknown"` in the crawl context when absent from the URL query
(no error is raised: `stateContext` is total), and the parameter's first
value is used when present. -/
theorem query_params_default_to_unknown (e : Env) (url : String) :
    (e.qp url "state_name" = [] → (stateContext e url).1 = "Unknown")
    ∧ (e.qp url "state_code" = [] → (stateContext e url).2.1 = "Unknown")
    ∧ (e.qp url "fin_year" = [] → (stateContext e url).2.2 = "Unknown")
    ∧ (∀ v vs, e.qp url "state_name" = v :: vs → (stateContext e url).1 = v)
    ∧ (∀ v vs, e.qp url "state_code" = v :: vs → (stateContext e url).2.1 = v)
    ∧ (∀ v vs, e.qp url "fin_year" = v :: vs → (stateContext e url).2.2 = v) := by
  refine ⟨fun h => ?_, fun h => ?_, fun h => ?_,
    fun v vs h => ?_, fun v vs h => ?_, fun v vs h => ?_⟩ <;>
    simp [stateContext, getParam, h]

/-- Witness for C8: in the fixture URL, `fin_year` is absent and defaults
to `"Unknown"`, while the present `state_name` yields its first value. -/
theorem query_params_default_to_unknown_witness :
    (stateContext envTest "surl").2.2 = "Unknown"
    ∧ (stateContext envTest "surl").1 = "TestState" :=
  ⟨(query_params_default_to_unknown envTest "surl").2.2.1 rfl,
   (query_params_default_to_unknown envTest "surl").2.2.2.1 "TestState" [] rfl⟩

/-- C1: with the `t1` table present, `scrape_table_data` maps each
post-header row through `recordFromRow`; a row with fewer than 14 cells
yields no record at all, and a row with at least 14 cells yields exactly
the record whose Panchayat is the transliterated trimmed second cell and
whose month fields April through March are, positionally in that order,
the raw trimmed texts of cells 3 through 14. -/
theorem scrape_emits_positional_records (uni : String → String)
    (s sid fy d b : String) (doc : Document) (t : HTable)
    (ht : findT1 doc = some t) :
    scrape_table_data uni (some doc) s sid fy d b
      = (t.rows.drop 4).filterMap (recordFromRow uni s sid fy d b)
    ∧ (∀ row : Row, row.cells.length < 14 →
        recordFromRow uni s sid fy d b row = none)
    ∧ (∀ (row : Row) (c0 c1 c2 c3 c4 c5 c6 c7 c8 c9 c10 c11 c12 c13 : Cell)
        (rest : List Cell),
        row.cells = c0 :: c1 :: c2 :: c3 :: c4 :: c5 :: c6 :: c7 :: c8 :: c9
          :: c10 :: c11 :: c12 :: c13 :: rest →
        recordFromRow uni s sid fy d b row = some
          { state := s, state_id := sid, fy := fy, district := d, block := b,
            panchayat := uni (pyStrip c1.text),
            april := pyStrip c2.text, may := pyStrip c3.text,
            june := pyStrip c4.text, july := pyStrip c5.text,
            august := pyStrip c6.text, september := pyStrip c7.text,
            october := pyStrip c8.text, november := pyStrip c9.text,
            december := pyStrip c10.text, january := pyStrip c11.text,
            february := pyStrip c12.text, march := pyStrip c13.text }) := by
  refine ⟨by simp [scrape_table_data, ht], ?_, ?_⟩
  · intro row hlt
    rcases row with ⟨cells⟩
    simp only [recordFromRow]
    rcases cells with _ | ⟨c0, cells⟩
    · rfl
    rcases cells with _ | ⟨c1, cells⟩
    · rfl
    rcases cells with _ | ⟨c2, cells⟩
    · rfl
    rcases cells with _ | ⟨c3, cells⟩
    · rfl
    rcases cells with _ | ⟨c4, cells⟩
    · rfl
    rcases cells with _ | ⟨c5, cells⟩
    · rfl
    rcases cells with _ | ⟨c6, cells⟩
    · rfl
    rcases cells with _ | ⟨c7, cells⟩
    · rfl
    rcases cells with _ | ⟨c8, cells⟩
    · rfl
    rcases cells with _ | ⟨c9, cells⟩
    · rfl
    rcases cells with _ | ⟨c10, cells⟩
    · rfl
    rcases cells with _ | ⟨c11, cells⟩
    · rfl
    rcases cells with _ | ⟨c12, cells⟩
    · rfl
    rcases cells with _ | ⟨c13, cells⟩
    · rfl
    exfalso
    simp [List.length_cons] at hlt
    omega
  · intro row c0 c1 c2 c3 c4 c5 c6 c7 c8 c9 c10 c11 c12 c13 rest hc
    rcases row with ⟨cells⟩
    simp only at hc
    subst hc
    rfl

/-- Witness for C1 on the fixture block page: the filterMap shape holds,
and a row with no cells yields no record. -/
theorem scrape_emits_positional_records_witness :
    scrape_table_data uniTest (some blockDoc) "TestState" "09" "Unknown" "tD" "tB"
      = (blockTable.rows.drop 4).filterMap
          (recordFromRow uniTest "TestState" "09" "Unknown" "tD" "tB")
    ∧ recordFromRow uniTest "TestState" "09" "Unknown" "tD" "tB" emptyRow = none :=
  ⟨(scrape_emits_positional_records uniTest "TestState" "09" "Unknown" "tD" "tB"
      blockDoc blockTable (by decide)).1,
   (scrape_emits_positional_records uniTest "TestState" "09" "Unknown" "tD" "tB"
      blockDoc blockTable (by decide)).2.1 emptyRow (by decide)⟩

/-- C3: with the `t1` table present, `extract_links` discards the first
four rows and folds the remaining rows in order: a row with fewer than two
cells, or with no link in its second cell, contributes nothing; a row whose
second cell's first link carries an `href` contributes exactly the pair
(transliterated trimmed link text, href resolved against the fixed base
URL), placed before the pairs of the later rows. -/
theorem extract_links_positional (uni : String → String)
    (uj : String → String → String) (doc : Document) (t : HTable)
    (ht : findT1 doc = some t) :
    extract_links uni uj (some doc) = linksFromRows uni uj (t.rows.drop 4)
    ∧ (∀ row : Row, row.cells.length < 2 → linkFromRow uni uj row = .ok none)
    ∧ (∀ (row : Row) (c0 c1 : Cell) (rest : List Cell),
        row.cells = c0 :: c1 :: rest → c1.links.head? = none →
        linkFromRow uni uj row = .ok none)
    ∧ (∀ (row : Row) (c0 c1 : Cell) (rest : List Cell) (a : ATag) (h : String),
        row.cells = c0 :: c1 :: rest → c1.links.head? = some a →
        a.href = some h →
        linkFromRow uni uj row
          = .ok (some (uni (pyStrip a.text), uj base_url h)))
    ∧ (∀ (row : Row) (rest : List Row),
        linkFromRow uni uj row = .ok none →
        linksFromRows uni uj (row :: rest) = linksFromRows uni uj rest)
    ∧ (∀ (row : Row) (rest : List Row) (p : String × String),
        linkFromRow uni uj row = .ok (some p) →
        linksFromRows uni uj (row :: rest)
          = (linksFromRows uni uj rest).map (fun l => p :: l)) := by
  refine ⟨by simp [extract_links, ht], ?_, ?_, ?_, ?_, ?_⟩
  · intro row hlt
    rcases row with ⟨cells⟩
    simp only [linkFromRow]
    rcases cells with _ | ⟨c0, cells⟩
    · rfl
    rcases cells with _ | ⟨c1, cells⟩
    · rfl
    exfalso
    simp [List.length_cons] at hlt
    omega
  · intro row c0 c1 rest hc hl
    rcases row with ⟨cells⟩
    simp only at hc
    subst hc
    simp [linkFromRow, hl]
  · intro row c0 c1 rest a h hc hl hh
    rcases row with ⟨cells⟩
    simp only at hc
    subst hc
    simp [linkFromRow, hl, hh]
  · intro row rest hl
    simp [linksFromRows, hl]
  · intro row rest p hl
    simp [linksFromRows, hl]

/-- Witness for C3 on the fixture state page: one district link is
extracted, with transliterated name and the href handed to the resolver. -/
theorem extract_links_positional_witness :
    extract_links uniTest ujTest (some stateDoc)
      = linksFromRows uniTest ujTest (stateTable.rows.drop 4)
    ∧ extract_links uniTest ujTest (some stateDoc) = .ok [("t:D", "durl")] :=
  ⟨(extract_links_positional uniTest ujTest stateDoc stateTable (by decide)).1,
   by decide⟩

/-- The C10 precondition on one row, decidably: if the row has a second
cell and that cell contains a link, the first link found carries an `href`
attribute. -/
def rowHrefOk (row : Row) : Bool :=
  (row.cells[1]?).all fun c1 => (c1.links.head?).all fun a => a.href.isSome

/-- A row satisfying `rowHrefOk` never hits the `KeyError` branch. -/
theorem linkFromRow_ok_of_hrefOk (uni : String → String)
    (uj : String → String → String) (row : Row)
    (h : rowHrefOk row = true) :
    ∃ o, linkFromRow uni uj row = .ok o := by
  unfold rowHrefOk at h
  rcases row with ⟨cells⟩
  rcases cells with _ | ⟨c0, cells⟩
  · exact ⟨none, rfl⟩
  rcases cells with _ | ⟨c1, cells⟩
  · exact ⟨none, rfl⟩
  simp only [List.getElem?_cons_succ, List.getElem?_cons_zero, Option.all_some] at h
  rcases ha : c1.links.head? with _ | a
  · exact ⟨none, by simp [linkFromRow, ha]⟩
  rw [ha, Option.all_some] at h
  rcases hh : a.href with _ | s
  · rw [hh] at h
    simp at h
  exact ⟨some (uni (pyStrip a.text), uj base_url s), by simp [linkFromRow, ha, hh]⟩

/-- A row list all of whose rows satisfy `rowHrefOk` is folded without
error. -/
theorem linksFromRows_ok_of_hrefOk (uni : String → String)
    (uj : String → String → String) (rows : List Row)
    (h : ∀ row ∈ rows, rowHrefOk row = true) :
    ∃ l, linksFromRows uni uj rows = .ok l := by
  induction rows with
  | nil => exact ⟨[], rfl⟩
  | cons row rest ih =>
    obtain ⟨l, hl⟩ := ih fun r hr => h r (List.mem_cons_of_mem _ hr)
    obtain ⟨o, ho⟩ :=
      linkFromRow_ok_of_hrefOk uni uj row (h row (List.mem_cons_self _ _))
    rcases o with _ | p
    · exact ⟨l, by simp [linksFromRows, ho, hl]⟩
    · exact ⟨p :: l, by simp [linksFromRows, ho, hl, Except.map]⟩

/-- C10: `extract_links` reads the `href` attribute unconditionally, and is
error-free exactly under the precondition that in every post-header row the
link found in the second cell (when any) carries an `href`; under that
precondition the `KeyError` branch is unreachable, and on a page violating
it (`badDoc`) the error branch is reached. -/
theorem extract_links_total_iff_hrefs (uni : String → String)
    (uj : String → String → String) :
    (∀ (doc : Document) (t : HTable), findT1 doc = some t →
      (∀ row ∈ t.rows.drop 4, rowHrefOk row = true) →
      ∃ l, extract_links uni uj (some doc) = .ok l)
    ∧ extract_links uni uj (some badDoc) = .error () := by
  constructor
  · intro doc t ht hrows
    obtain ⟨l, hl⟩ := linksFromRows_ok_of_hrefOk uni uj (t.rows.drop 4) hrows
    exact ⟨l, by simp [extract_links, ht, hl]⟩
  · rfl

/-- Witness for C10 on the fixture state page, whose one data row does
carry an `href`. -/
theorem extract_links_total_iff_hrefs_witness :
    ∃ l, extract_links uniTest ujTest (some stateDoc) = .ok l :=
  (extract_links_total_iff_hrefs uniTest ujTest).1 stateDoc stateTable
    (by decide) (by decide)

/-- `>>=` on an `ok` value for `Except` reduces to application. -/
theorem exceptBind_ok {ε α β : Type} (a : α) (f : α → Except ε β) :
    (Except.ok a : Except ε α) >>= f = f a := rfl

/-- `>>=` on an `error` value for `Except` short-circuits. -/
theorem exceptBind_error {ε α β : Type} (er : ε) (f : α → Except ε β) :
    (Except.error er : Except ε α) >>= f = Except.error er := rfl

/-- `pure` for `Except` is `ok`. -/
theorem exceptPure_eq_ok {ε α : Type} (a : α) :
    (pure a : Except ε α) = Except.ok a := rfl

/-- C5: after all states are processed, `main` performs exactly one write:
none when the accumulated collection is empty, otherwise a single file
whose content is a header row of exactly the 18 named columns in fixed
order followed by one row per leaf record, with no trailing summary row. -/
theorem main_writes_single_file_at_end (e : Env) (urls : List String)
    (recs : List LeafRecord) (h : mainRecords e urls = .ok recs) :
    main e urls = .ok (if recs = [] then none
      else some (output_file, csvHeader :: recs.map recordToRow))
    ∧ csvHeader
      = ["State", "State ID", "FY", "District", "Block", "Panchayat",
         "April", "May", "June", "July", "August", "September",
         "October", "November", "December", "January", "February", "March"]
    ∧ csvHeader.length = 18
    ∧ (csvHeader :: recs.map recordToRow).length = 1 + recs.length := by
  refine ⟨?_, rfl, rfl, by simp [Nat.add_comm]⟩
  unfold main
  rw [h, exceptBind_ok]
  rcases recs with _ | ⟨r, rs⟩ <;> simp [csvContent, exceptPure_eq_ok]

/-- Witness for C5: the fixture run writes one file with header and one
record row; an empty run writes nothing. -/
theorem main_writes_single_file_at_end_witness :
    main envTest ["surl"] = .ok (if ([recTest] : List LeafRecord) = [] then none
      else some (output_file, csvHeader :: [recTest].map recordToRow))
    ∧ main envTest [] = .ok (if ([] : List LeafRecord) = [] then none
      else some (output_file, csvHeader :: ([] : List LeafRecord).map recordToRow)) :=
  ⟨(main_writes_single_file_at_end envTest ["surl"] [recTest] (by decide)).1,
   (main_writes_single_file_at_end envTest [] [] rfl).1⟩

/-- A block whose contribution is empty can be cut out of the block loop
without changing anything else. -/
theorem blocksLoop_middle_nil (e : Env) (s sid fy d : String)
    (blk : String × String) (bs1 bs2 : List (String × String))
    (h : processBlock e s sid fy d blk = []) :
    blocksLoop e s sid fy d (bs1 ++ blk :: bs2)
      = blocksLoop e s sid fy d (bs1 ++ bs2) := by
  induction bs1 with
  | nil => simp [blocksLoop, h]
  | cons hd tl ih => simp [blocksLoop, ih]

/-- A district whose contribution is `ok []` can be cut out of the district
loop without changing anything else. -/
theorem districtsLoop_middle_nil (e : Env) (s sid fy : String)
    (dst : String × String) (ds1 ds2 : List (String × String))
    (h : processDistrict e s sid fy dst = .ok []) :
    districtsLoop e s sid fy (ds1 ++ dst :: ds2)
      = districtsLoop e s sid fy (ds1 ++ ds2) := by
  induction ds1 with
  | nil => simp [districtsLoop, h, exceptBind_ok]
  | cons hd tl ih =>
    simp only [List.cons_append, districtsLoop, List.append_eq]
    rw [ih]

/-- A state whose contribution is `ok []` can be cut out of the state loop
without changing anything else. -/
theorem statesLoop_middle_nil (e : Env) (u : String) (us1 us2 : List String)
    (h : processState e u = .ok []) :
    statesLoop e (us1 ++ u :: us2) = statesLoop e (us1 ++ us2) := by
  induction us1 with
  | nil => simp [statesLoop, h, exceptBind_ok]
  | cons hd tl ih =>
    simp only [List.cons_append, statesLoop, List.append_eq]
    rw [ih]

/-- C6: a fetch failure at block, district or state level skips exactly the
subtree rooted at the failed page — the level's contribution is the empty
one, no error is propagated, and removing the failed entry from its
sibling list leaves the rest of the run unchanged (no retry, no abort). -/
theorem fetch_failure_skips_only_subtree (e : Env) (s sid fy d : String) :
    (∀ (blk : String × String) (bs1 bs2 : List (String × String)),
      e.net blk.2 = .error () →
      processBlock e s sid fy d blk = []
      ∧ blocksLoop e s sid fy d (bs1 ++ blk :: bs2)
          = blocksLoop e s sid fy d (bs1 ++ bs2))
    ∧ (∀ (dst : String × String) (ds1 ds2 : List (String × String)),
      e.net dst.2 = .error () →
      processDistrict e s sid fy dst = .ok []
      ∧ districtsLoop e s sid fy (ds1 ++ dst :: ds2)
          = districtsLoop e s sid fy (ds1 ++ ds2))
    ∧ (∀ (u : String) (us1 us2 : List String),
      e.net u = .error () →
      processState e u = .ok []
      ∧ statesLoop e (us1 ++ u :: us2) = statesLoop e (us1 ++ us2)
      ∧ mainRecords e (us1 ++ u :: us2) = mainRecords e (us1 ++ us2)) := by
  refine ⟨fun blk bs1 bs2 h => ?_, fun dst ds1 ds2 h => ?_, fun u us1 us2 h => ?_⟩
  · have hb : processBlock e s sid fy d blk = [] := by
      simp [processBlock, soupOf, get_soup, h]
    exact ⟨hb, blocksLoop_middle_nil e s sid fy d blk bs1 bs2 hb⟩
  · have hd : processDistrict e s sid fy dst = .ok [] := by
      simp [processDistrict, soupOf, get_soup, h]
    exact ⟨hd, districtsLoop_middle_nil e s sid fy dst ds1 ds2 hd⟩
  · have hs : processState e u = .ok [] := by
      simp [processState, soupOf, get_soup, h]
    exact ⟨hs, statesLoop_middle_nil e u us1 us2 hs,
      statesLoop_middle_nil e u us1 us2 hs⟩

/-- Witness for C6: a failing URL in the middle of the fixture state list
contributes nothing and leaves its siblings' records unchanged. -/
theorem fetch_failure_skips_only_subtree_witness :
    processState envTest "nope" = .ok []
    ∧ statesLoop envTest (["surl"] ++ "nope" :: ["surl"])
        = statesLoop envTest (["surl"] ++ ["surl"])
    ∧ mainRecords envTest (["surl"] ++ "nope" :: ["surl"])
        = mainRecords envTest (["surl"] ++ ["surl"]) :=
  (fetch_failure_skips_only_subtree envTest "TestState" "09" "Unknown"
    "tD").2.2 "nope" ["surl"] ["surl"] (by decide)

/-- Every record emitted by `scrape_table_data` carries exactly the five
ancestor-context values it was called with. -/
theorem mem_scrape_ancestors (uni : String → String) (soup : Option Document)
    (s sid fy d b : String) (r : LeafRecord)
    (hr : r ∈ scrape_table_data uni soup s sid fy d b) :
    r.state = s ∧ r.state_id = sid ∧ r.fy = fy ∧ r.district = d ∧ r.block = b := by
  unfold scrape_table_data at hr
  split at hr
  · simp at hr
  · split at hr
    · simp at hr
    · obtain ⟨row, hrow, hrec⟩ := List.mem_filterMap.1 hr
      unfold recordFromRow at hrec
      split at hrec
      · injection hrec with hrec
        subst hrec
        exact ⟨rfl, rfl, rfl, rfl, rfl⟩
      · cases hrec

/-- A record contributed by `processBlock` came from scraping that block's
page with that block's name. -/
theorem mem_processBlock (e : Env) (s sid fy d : String)
    (blk : String × String) (r : LeafRecord)
    (hr : r ∈ processBlock e s sid fy d blk) :
    r ∈ scrape_table_data e.uni (soupOf e.net blk.2) s sid fy d blk.1 := by
  unfold processBlock at hr
  split at hr
  · simp at hr
  · rename_i doc hsoup
    rw [hsoup]
    exact hr

/-- A record in the block loop's accumulation came from one of the listed
blocks. -/
theorem mem_blocksLoop (e : Env) (s sid fy d : String)
    (bs : List (String × String)) (r : LeafRecord)
    (hr : r ∈ blocksLoop e s sid fy d bs) :
    ∃ blk ∈ bs, r ∈ processBlock e s sid fy d blk := by
  induction bs with
  | nil => simp [blocksLoop] at hr
  | cons blk rest ih =>
    rw [blocksLoop] at hr
    rcases List.mem_append.1 hr with hcase | hcase
    · exact ⟨blk, List.mem_cons_self _ _, hcase⟩
    · obtain ⟨b2, hb2, hrb⟩ := ih hcase
      exact ⟨b2, List.mem_cons_of_mem _ hb2, hrb⟩

/-- A record in the district loop's accumulation came from one of the
listed districts, whose processing succeeded. -/
theorem mem_districtsLoop (e : Env) (s sid fy : String)
    (ds : List (String × String)) (recs : List LeafRecord)
    (h : districtsLoop e s sid fy ds = .ok recs) (r : LeafRecord)
    (hr : r ∈ recs) :
    ∃ dst ∈ ds, ∃ drecs, processDistrict e s sid fy dst = .ok drecs
      ∧ r ∈ drecs := by
  induction ds generalizing recs with
  | nil =>
    simp only [districtsLoop, Except.ok.injEq] at h
    subst h
    simp at hr
  | cons dst rest ih =>
    rw [districtsLoop] at h
    cases hd : processDistrict e s sid fy dst with
    | error er =>
      rw [hd, exceptBind_error] at h
      cases h
    | ok drecs =>
      rw [hd, exceptBind_ok] at h
      cases hrest : districtsLoop e s sid fy rest with
      | error er =>
        rw [hrest, exceptBind_error] at h
        cases h
      | ok rrecs =>
        rw [hrest, exceptBind_ok, exceptPure_eq_ok] at h
        injection h with h
        subst h
        rcases List.mem_append.1 hr with hcase | hcase
        · exact ⟨dst, List.mem_cons_self _ _, drecs, hd, hcase⟩
        · obtain ⟨d2, hd2, drecs2, hpd2, hr2⟩ := ih rrecs hrest hcase
          exact ⟨d2, List.mem_cons_of_mem _ hd2, drecs2, hpd2, hr2⟩

/-- A record contributed by a successfully processed district came from
one of the blocks linked on that district's page. -/
theorem mem_processDistrict (e : Env) (s sid fy : String)
    (dst : String × String) (drecs : List LeafRecord)
    (h : processDistrict e s sid fy dst = .ok drecs) (r : LeafRecord)
    (hr : r ∈ drecs) :
    ∃ ddoc, soupOf e.net dst.2 = some ddoc
      ∧ ∃ bls, extract_links e.uni e.urljoin (some ddoc) = .ok bls
      ∧ ∃ blk ∈ bls, r ∈ processBlock e s sid fy dst.1 blk := by
  unfold processDistrict at h
  split at h
  · injection h with h
    subst h
    simp at hr
  · rename_i ddoc hsoup
    cases hex : extract_links e.uni e.urljoin (some ddoc) with
    | error er =>
      rw [hex, exceptBind_error] at h
      cases h
    | ok bls =>
      rw [hex, exceptBind_ok, exceptPure_eq_ok] at h
      injection h with h
      subst h
      obtain ⟨blk, hblk, hrb⟩ := mem_blocksLoop e s sid fy dst.1 bls r hr
      exact ⟨ddoc, hsoup, bls, hex, blk, hblk, hrb⟩

/-- C7: every leaf record's ancestor fields equal exactly the crawl-path
context it was reached through — the state context parsed from its state
URL, the district-link name, and the block-link name on the pages actually
fetched — and the accumulated collection is built in insertion order:
state-list order, then extracted-link order at each level. -/
theorem ancestors_match_crawl_path (e : Env) :
    (∀ (url : String) (recs : List LeafRecord) (r : LeafRecord),
      processState e url = .ok recs → r ∈ recs →
      (r.state, r.state_id, r.fy) = stateContext e url
      ∧ ∃ sdoc, soupOf e.net url = some sdoc
      ∧ ∃ dls, extract_links e.uni e.urljoin (some sdoc) = .ok dls
      ∧ ∃ dl ∈ dls, r.district = dl.1
      ∧ ∃ ddoc, soupOf e.net dl.2 = some ddoc
      ∧ ∃ bls, extract_links e.uni e.urljoin (some ddoc) = .ok bls
      ∧ ∃ bl ∈ bls, r.block = bl.1
      ∧ r ∈ scrape_table_data e.uni (soupOf e.net bl.2)
          (stateContext e url).1 (stateContext e url).2.1
          (stateContext e url).2.2 dl.1 bl.1)
    ∧ (∀ (u : String) (us : List String),
        statesLoop e (u :: us) = do
          let head ← processState e u
          let tail ← statesLoop e us
          pure (head ++ tail))
    ∧ (∀ (s sid fy : String) (dst : String × String)
        (ds : List (String × String)),
        districtsLoop e s sid fy (dst :: ds) = do
          let head ← processDistrict e s sid fy dst
          let tail ← districtsLoop e s sid fy ds
          pure (head ++ tail))
    ∧ (∀ (s sid fy d : String) (blk : String × String)
        (bs : List (String × String)),
        blocksLoop e s sid fy d (blk :: bs)
          = processBlock e s sid fy d blk ++ blocksLoop e s sid fy d bs) := by
  refine ⟨?_, fun u us => rfl, fun s sid fy dst ds => rfl,
    fun s sid fy d blk bs => rfl⟩
  intro url recs r h hr
  unfold processState at h
  split at h
  · injection h with h
    subst h
    simp at hr
  · rename_i sdoc hsoup
    cases hex : extract_links e.uni e.urljoin (some sdoc) with
    | error er =>
      rw [hex, exceptBind_error] at h
      cases h
    | ok dls =>
      rw [hex, exceptBind_ok] at h
      obtain ⟨dl, hdl, drecs, hpd, hrd⟩ :=
        mem_districtsLoop e _ _ _ dls recs h r hr
      obtain ⟨ddoc, hdsoup, bls, hbex, blk, hblk, hrb⟩ :=
        mem_processDistrict e _ _ _ dl drecs hpd r hrd
      have hscr := mem_processBlock e _ _ _ dl.1 blk r hrb
      have hanc := mem_scrape_ancestors e.uni (soupOf e.net blk.2) _ _ _
        dl.1 blk.1 r hscr
      refine ⟨?_, sdoc, hsoup, dls, hex, dl, hdl, hanc.2.2.2.1,
        ddoc, hdsoup, bls, hbex, blk, hblk, hanc.2.2.2.2, hscr⟩
      simp [Prod.ext_iff, hanc.1, hanc.2.1, hanc.2.2.1]

/-- Witness for C7: the fixture record's ancestor fields equal the context
of the path that produced it. -/
theorem ancestors_match_crawl_path_witness :
    (recTest.state, recTest.state_id, recTest.fy) = stateContext envTest "surl"
    ∧ recTest.district = "t:D" ∧ recTest.block = "t:B" := by
  have h := (ancestors_match_crawl_path envTest).1 "surl" [recTest] recTest
    (by decide) (by decide)
  exact ⟨h.1, by decide, by decide⟩

/-- C9 counterexample: on the fixture site both scripts accumulate the same
records, yet the two `main` functions do not produce the same output: the
original writes to `put/yourr/output/path/here.csv` while the refactored
file writes to `put/your/output/path/here.csv`, a difference that is
neither logging nor a docstring. -/
theorem refactored_differs_on_output_path :
    main envTest ["surl"] = .ok (some (output_file, csvContent [recTest]))
    ∧ main_r envTest ["surl"] = .ok (some (output_path, csvContent [recTest]))
    ∧ output_file ≠ output_path
    ∧ main envTest ["surl"] ≠ main_r envTest ["surl"] := by
  exact ⟨by decide, by decide, by decide, by decide⟩

/-- The refactored per-row link extraction is the original one
(`BASE_URL_PATH` and `base_url` are the same string). -/
theorem linkFromRowR_eq (uni : String → String)
    (uj : String → String → String) (row : Row) :
    linkFromRowR uni uj row = linkFromRow uni uj row := rfl

/-- The refactored link row loop is the original one. -/
theorem linksFromRowsR_eq (uni : String → String)
    (uj : String → String → String) (rows : List Row) :
    linksFromRowsR uni uj rows = linksFromRows uni uj rows := by
  induction rows with
  | nil => rfl
  | cons row rest ih =>
    simp [linksFromRowsR, linksFromRows, linkFromRowR_eq, ih]

/-- The refactored `extract_links` is the original one. -/
theorem extract_links_r_eq (uni : String → String)
    (uj : String → String → String) (soup : Option Document) :
    extract_links_r uni uj soup = extract_links uni uj soup := by
  cases soup with
  | none => rfl
  | some doc =>
    cases h : findT1 doc <;>
      simp [extract_links_r, extract_links, h, linksFromRowsR_eq]

/-- The refactored `scrape_table_data` is the original one. -/
theorem scrape_table_data_r_eq (uni : String → String) (soup : Option Document)
    (s sid fy d b : String) :
    scrape_table_data_r uni soup s sid fy d b
      = scrape_table_data uni soup s sid fy d b := rfl

/-- The refactored `get_soup` is the original one. -/
theorem get_soup_r_eq (net : String → Except Unit Document) (url : String) :
    get_soup_r net url = get_soup net url := rfl

/-- The refactored block processing is the original one. -/
theorem processBlockR_eq (e : Env) (s sid fy d : String)
    (blk : String × String) :
    processBlockR e s sid fy d blk = processBlock e s sid fy d blk := rfl

/-- The refactored block loop is the original one. -/
theorem blocksLoopR_eq (e : Env) (s sid fy d : String)
    (bs : List (String × String)) :
    blocksLoopR e s sid fy d bs = blocksLoop e s sid fy d bs := by
  induction bs with
  | nil => rfl
  | cons blk rest ih => simp [blocksLoopR, blocksLoop, processBlockR_eq, ih]

/-- The refactored district processing is the original one. -/
theorem processDistrictR_eq (e : Env) (s sid fy : String)
    (dst : String × String) :
    processDistrictR e s sid fy dst = processDistrict e s sid fy dst := by
  unfold processDistrictR processDistrict
  rw [show (get_soup_r e.net dst.2).result = soupOf e.net dst.2 from rfl]
  cases soupOf e.net dst.2 with
  | none => rfl
  | some ddoc =>
    dsimp only
    rw [extract_links_r_eq]
    cases extract_links e.uni e.urljoin (some ddoc) with
    | error er => rfl
    | ok bls => simp [exceptBind_ok, blocksLoopR_eq]

/-- The refactored district loop is the original one. -/
theorem districtsLoopR_eq (e : Env) (s sid fy : String)
    (ds : List (String × String)) :
    districtsLoopR e s sid fy ds = districtsLoop e s sid fy ds := by
  induction ds with
  | nil => rfl
  | cons dst rest ih =>
    simp [districtsLoopR, districtsLoop, processDistrictR_eq, ih]

/-- The refactored state processing is the original one. -/
theorem processStateR_eq (e : Env) (url : String) :
    processStateR e url = processState e url := by
  unfold processStateR processState
  rw [show (get_soup_r e.net url).result = soupOf e.net url from rfl]
  cases soupOf e.net url with
  | none => rfl
  | some sdoc =>
    dsimp only
    rw [extract_links_r_eq]
    cases extract_links e.uni e.urljoin (some sdoc) with
    | error er => rfl
    | ok dls => simp [exceptBind_ok, districtsLoopR_eq, stateContext]

/-- The refactored state loop is the original one. -/
theorem statesLoopR_eq (e : Env) (urls : List String) :
    statesLoopR e urls = statesLoop e urls := by
  induction urls with
  | nil => rfl
  | cons url rest ih =>
    simp [statesLoopR, statesLoop, processStateR_eq, ih]

/-- C9 (amended): the two files implement identical logic — identical fetch
traces, link extraction, leaf scraping and accumulated record collection,
hence identical CSV content — and differ, beyond logging and docstrings,
only in the hard-coded output file path. -/
theorem refactored_equivalent_except_path (e : Env) :
    (∀ url, get_soup_r e.net url = get_soup e.net url)
    ∧ (∀ soup, extract_links_r e.uni e.urljoin soup
        = extract_links e.uni e.urljoin soup)
    ∧ (∀ soup s sid fy d b, scrape_table_data_r e.uni soup s sid fy d b
        = scrape_table_data e.uni soup s sid fy d b)
    ∧ (∀ urls, mainRecordsR e urls = mainRecords e urls)
    ∧ (∀ urls, main_r e urls
        = (main e urls).map (Option.map fun pr => (output_path, pr.2))) := by
  refine ⟨fun url => rfl, fun soup => extract_links_r_eq e.uni e.urljoin soup,
    fun soup s sid fy d b => rfl,
    fun urls => statesLoopR_eq e urls, fun urls => ?_⟩
  unfold main_r main mainRecordsR mainRecords
  rw [statesLoopR_eq]
  cases statesLoop e urls with
  | error er => rfl
  | ok recs =>
    rw [exceptBind_ok, exceptBind_ok]
    by_cases hrec : recs.isEmpty
    · simp [hrec, exceptPure_eq_ok, Except.map]
    · simp [hrec, exceptPure_eq_ok, Except.map]

end LipiSwap
